import Mathlib

/-!
Verification of the FreeRTOS light-sensor sketch (`src/freeRTOS.ino`).

The sketch runs five tasks: `lightDetectorTask` (sampler), `lightDisplayTask`
(display composer), `lcdTask` (renderer), `alarmTask` (alarm monitor) and
`primeTask` (background compute), synchronized by two binary semaphores and a
bounded queue.  Below, each task body is embedded as a pure Lean function over
an explicit state; sensor readings are the 12-bit ADC values, so machine `int`
values that are always non-negative are modelled as `Nat`, while the display
task's `-1` sentinels and the alarm thresholds are modelled over `Int`.
-/

/-- State of `lightDetectorTask`'s globals: `lightLevel`, `smaValue`,
`lightHistory[5]` and `historyIndex` (lines 44-54 of the source). -/
structure SamplerState where
  lightLevel : Nat
  smaValue : Nat
  lightHistory : List Nat
  historyIndex : Nat
  deriving DecidableEq

/-- Initial values of the globals: zeroed history, cursor 0. -/
def samplerInit : SamplerState :=
  { lightLevel := 0, smaValue := 0, lightHistory := List.replicate 5 0, historyIndex := 0 }

/-- One iteration of `lightDetectorTask`'s loop body (lines 89-98):
store the reading in `lightLevel`, write it into the circular history at the
cursor, advance the cursor mod 5, and recompute `smaValue` as the integer mean
of all five slots. -/
def lightDetectorStep (st : SamplerState) (val : Nat) : SamplerState :=
  let h := st.lightHistory.set st.historyIndex val
  { lightLevel := val
    smaValue := h.sum / 5
    lightHistory := h
    historyIndex := (st.historyIndex + 1) % 5 }

/-- The sampler state after processing a sequence of sensor readings. -/
def lightDetectorRun (xs : List Nat) : SamplerState :=
  xs.foldl lightDetectorStep samplerInit

/-- Local state of `lightDisplayTask`: the last rendered raw and smoothed
values (`lastLight`, `lastSMA`, lines 114-115). -/
structure DisplayState where
  lastLight : Int
  lastSMA : Int
  deriving DecidableEq

/-- `lightDisplayTask` declares `int lastLight = -1; int lastSMA = -1;`. -/
def displayInit : DisplayState := { lastLight := -1, lastSMA := -1 }

/-- One wake of `lightDisplayTask` (lines 118-127): given the values read from
the shared globals, if either differs from the last rendered value, queue a
message carrying both and update the last-rendered memory; otherwise do
nothing.  The queued message is modelled as the `(light, sma)` pair the two
`snprintf` lines format. -/
def lightDisplayStep (st : DisplayState) (light sma : Int) :
    DisplayState × Option (Int × Int) :=
  if light ≠ st.lastLight ∨ sma ≠ st.lastSMA then
    ({ lastLight := light, lastSMA := sma }, some (light, sma))
  else
    (st, none)

/-- Observable actions of `alarmTask`: taking the wake semaphore, driving the
LED pin, and a blocking delay of the given number of milliseconds. -/
inductive AlarmAct where
  | takeWake
  | setOutput (high : Bool)
  | delayMs (ms : Nat)
  deriving DecidableEq

/-- The out-of-range test of `alarmTask` (line 140):
`smaValue > 3800 || smaValue < 300`. -/
def alarmCheck (sma : Int) : Bool := sma > 3800 || sma < 300

/-- The alarm episode body (lines 142-148): three iterations of
HIGH, delay 250, LOW, delay 250, followed by the 2000 ms cool-down delay. -/
def alarmFlash : List AlarmAct :=
  (List.replicate 3
    [AlarmAct.setOutput true, AlarmAct.delayMs 250,
     AlarmAct.setOutput false, AlarmAct.delayMs 250]).flatten ++
  [AlarmAct.delayMs 2000]

/-- One iteration of `alarmTask`'s loop (lines 138-150): take the wake
semaphore, then flash only when the smoothed value is out of range. -/
def alarmTaskIter (sma : Int) : List AlarmAct :=
  AlarmAct.takeWake :: (if alarmCheck sma then alarmFlash else [])

/-- The inner trial-division loop of `primeTask` (lines 161-167), with an
explicit fuel argument bounding the number of iterations of
`for (int i = 2; i * i <= num; i++)`; the loop returns `false` (composite) as
soon as a divisor is found. -/
def trialLoop (num : Nat) : Nat → Nat → Bool
  | _, 0 => true
  | i, fuel + 1 =>
    if i * i ≤ num then
      if num % i = 0 then false else trialLoop num (i + 1) fuel
    else true

/-- `isPrime` as computed by `primeTask` for one candidate `num`, starting the
divisor at 2; fuel `num` is more than the loop can ever consume. -/
def isPrimeTrial (num : Nat) : Bool := trialLoop num 2 num

/-- The numbers `primeTask` prints: every `num` in `[2, 5000]` that passes the
trial-division test, in increasing order. -/
def primeTaskEmits : List Nat :=
  (List.range' 2 4999).filter fun num => isPrimeTrial num

/-- Observable events of `primeTask`: emitting a prime, and the final
`vTaskDelete(NULL)` self-termination. -/
inductive PrimeEv where
  | emit (n : Nat)
  | taskExit
  deriving DecidableEq

/-- The full event trace of `primeTask`: all emissions, then self-deletion. -/
def primeTaskTrace : List PrimeEv :=
  primeTaskEmits.map PrimeEv.emit ++ [PrimeEv.taskExit]

/-- Modelled from the spec: the implementation of the FreeRTOS binary
semaphore (`xSemaphoreCreateBinary` / `xSemaphoreGive` / `xSemaphoreTake`) is
not part of this repository; only its creation and use appear in the source.
Per the spec, a wake signal is a single pending flag: a raise sets the flag
and is idempotent when the flag is already set.  The state is `Bool`
(`true` = a wake is pending). -/
def semGive (_ : Bool) : Bool := true

/-- Modelled from the spec: waiting on the wake signal succeeds exactly when
the flag is set and atomically clears it (`some` of the new state); with no
pending wake the wait blocks (`none`). -/
def semTake (pending : Bool) : Option Bool :=
  if pending then some false else none

/-- Outcome of `setup()` (lines 188-200): either the diagnostic-and-halt
branch, or a running system with the list of created task names. -/
inductive SetupOutcome where
  | halted (diag : String)
  | running (tasks : List String)
  deriving DecidableEq

/-- `setup()` after the three allocations, each argument telling whether the
corresponding allocation succeeded: on `!lcdQueue || !displaySemaphore ||
!alarmSemaphore` it prints the diagnostic and spins forever before any
`xTaskCreatePinnedToCore` call; otherwise it creates the five tasks. -/
def setupModel (lcdQueueOk displaySemOk alarmSemOk : Bool) : SetupOutcome :=
  if !lcdQueueOk || !displaySemOk || !alarmSemOk then
    SetupOutcome.halted "Failed to create queue or semaphores"
  else
    SetupOutcome.running ["LCD", "LightDetector", "LightDisplay", "Alarm", "Prime"]

/-- The two shared-global writes `lightDetectorTask` performs per cycle:
`lightLevel = val` (line 90) and `smaValue = sum / 5` (line 98).  They are
separate `volatile int` stores with no lock around the pair. -/
inductive SharedWrite where
  | setLight (v : Nat)
  | setSMA (v : Nat)
  deriving DecidableEq

/-- The sequence of shared writes the sampler issues while processing the
given readings, in program order: per cycle, first the raw store, then the
smoothed store. -/
def writerWrites : SamplerState → List Nat → List SharedWrite
  | _, [] => []
  | st, v :: rest =>
    let st' := lightDetectorStep st v
    SharedWrite.setLight v :: SharedWrite.setSMA st'.smaValue :: writerWrites st' rest

/-- The shared pair `{lightLevel, smaValue}` as seen in memory. -/
structure Shared where
  lightLevel : Nat
  smaValue : Nat
  deriving DecidableEq

/-- Apply one shared write to the shared pair. -/
def applyWrite (sh : Shared) : SharedWrite → Shared
  | SharedWrite.setLight v => { sh with lightLevel := v }
  | SharedWrite.setSMA v => { sh with smaValue := v }

/-- The shared pair after the first `p` writer stores (both globals start
at 0). -/
def sharedAfter (xs : List Nat) (p : Nat) : Shared :=
  ((writerWrites samplerInit xs).take p).foldl applyWrite { lightLevel := 0, smaValue := 0 }

/-- What `lightDisplayTask` observes when its read of `lightLevel` lands after
`p1` writer stores and its later read of `smaValue` lands after `p2 ≥ p1`
stores: reads of the two `volatile` globals are separate loads, so any such
interleaving is a possible schedule. -/
def readerObserves (xs : List Nat) (p1 p2 : Nat) : Nat × Nat :=
  ((sharedAfter xs p1).lightLevel, (sharedAfter xs p2).smaValue)

/-- The `(raw, smoothed)` pairs produced by the sampling cycles. -/
def cyclePairs : SamplerState → List Nat → List (Nat × Nat)
  | _, [] => []
  | st, v :: rest =>
    let st' := lightDetectorStep st v
    (st'.lightLevel, st'.smaValue) :: cyclePairs st' rest

/-- All pairs a reader may legitimately observe if publication were atomic:
the initial `(0, 0)` and each cycle's published pair. -/
def publishedPairs (xs : List Nat) : List (Nat × Nat) :=
  (0, 0) :: cyclePairs samplerInit xs

/-- Claim C1: the source publishes `{raw, smoothed}` as two separate
unsynchronized `volatile int` stores, so the publish is not atomic: with
readings 1000 then 2000, a display reader whose `lightLevel` load lands after
cycle 1's two stores and whose `smaValue` load lands after cycle 2's stores
observes `(1000, 600)` - the raw value of cycle 1 paired with the smoothed
value of cycle 2 - which is not a pair published by any cycle. -/
theorem sharedReading_tear_exists :
    2 ≤ 4 ∧
    readerObserves [1000, 2000] 2 4 = (1000, 600) ∧
    (1000, 600) ∉ publishedPairs [1000, 2000] := by
  decide

/-- Claim C3: `alarmTask` flashes exactly when the smoothed value it read is
strictly below 300 or strictly above 3800; for values in `[300, 3800]` the
iteration only takes the wake semaphore and never drives the LED output. -/
theorem alarm_threshold_check (s : Int) :
    (alarmCheck s = true ↔ (s < 300 ∨ 3800 < s)) ∧
    (300 ≤ s ∧ s ≤ 3800 → alarmTaskIter s = [AlarmAct.takeWake]) := by
  constructor
  · simp only [alarmCheck, Bool.or_eq_true, decide_eq_true_eq]
    constructor
    · intro h; omega
    · intro h; omega
  · intro h
    have hc : alarmCheck s = false := by
      simp only [alarmCheck, Bool.or_eq_false_iff, decide_eq_false_iff_not]
      omega
    simp [alarmTaskIter, hc]

/-- Witness for claim C3 at the boundary value 300: in range, no output. -/
theorem alarm_threshold_check_witness :
    (alarmCheck 300 = true ↔ ((300 : Int) < 300 ∨ (3800 : Int) < 300)) ∧
    alarmTaskIter 300 = [AlarmAct.takeWake] :=
  ⟨(alarm_threshold_check 300).1, (alarm_threshold_check 300).2 (by decide)⟩

/-- Claim C4: on a wake, `lightDisplayTask` queues a message carrying both
read values exactly when the raw or the smoothed value differs from the last
rendered pair; when it sends it updates the last-rendered memory to the new
values (when it does not, the state is unchanged); consequently a second
consecutive wake with the same two values never sends. -/
theorem display_change_filter (st : DisplayState) (light sma : Int) :
    ((lightDisplayStep st light sma).2 = some (light, sma) ↔
      (light ≠ st.lastLight ∨ sma ≠ st.lastSMA)) ∧
    ((lightDisplayStep st light sma).2 = none ∨
      (lightDisplayStep st light sma).1 = { lastLight := light, lastSMA := sma }) ∧
    (lightDisplayStep (lightDisplayStep st light sma).1 light sma).2 = none := by
  by_cases h : light ≠ st.lastLight ∨ sma ≠ st.lastSMA
  · refine ⟨by simp [lightDisplayStep, h], Or.inr (by simp [lightDisplayStep, h]), ?_⟩
    have h1 : (lightDisplayStep st light sma).1 = { lastLight := light, lastSMA := sma } := by
      simp [lightDisplayStep, h]
    rw [h1]
    simp [lightDisplayStep]
  · push_neg at h
    obtain ⟨h1, h2⟩ := h
    have hstep : lightDisplayStep st light sma = (st, none) := by
      simp [lightDisplayStep, h1, h2]
    refine ⟨?_, Or.inl (by rw [hstep]), by rw [hstep]; exact (by rw [hstep])⟩
    rw [hstep]
    simp [h1, h2]

/-- Claim C5: whenever the out-of-range check fires, the alarm iteration's
action trace is exactly HIGH, 250 ms, LOW, 250 ms repeated three times,
followed by the 2000 ms cool-down; the trace drives the output LOW before the
cool-down delay and contains no further semaphore take, so no new wake is
processed during the episode. -/
theorem alarm_episode_pattern (s : Int) (h : alarmCheck s = true) :
    alarmTaskIter s =
      [AlarmAct.takeWake,
       AlarmAct.setOutput true, AlarmAct.delayMs 250,
       AlarmAct.setOutput false, AlarmAct.delayMs 250,
       AlarmAct.setOutput true, AlarmAct.delayMs 250,
       AlarmAct.setOutput false, AlarmAct.delayMs 250,
       AlarmAct.setOutput true, AlarmAct.delayMs 250,
       AlarmAct.setOutput false, AlarmAct.delayMs 250,
       AlarmAct.delayMs 2000] := by
  simp only [alarmTaskIter, h, if_true]
  decide

/-- Witness for claim C5, the spec scenario: five readings of 4000 give a
smoothed value of 4000, which triggers, and the episode trace is as stated. -/
theorem alarm_episode_pattern_witness :
    (lightDetectorRun (List.replicate 5 4000)).smaValue = 4000 ∧
    alarmTaskIter 4000 =
      [AlarmAct.takeWake,
       AlarmAct.setOutput true, AlarmAct.delayMs 250,
       AlarmAct.setOutput false, AlarmAct.delayMs 250,
       AlarmAct.setOutput true, AlarmAct.delayMs 250,
       AlarmAct.setOutput false, AlarmAct.delayMs 250,
       AlarmAct.setOutput true, AlarmAct.delayMs 250,
       AlarmAct.setOutput false, AlarmAct.delayMs 250,
       AlarmAct.delayMs 2000] :=
  ⟨by decide, alarm_episode_pattern 4000 (by decide)⟩

/-- Claim C7: wake signals coalesce.  Any number `n ≥ 1` of raises delivered
while the consumer is busy leaves exactly one pending wake; the next wait
consumes it (receiving exactly one wake and clearing the flag), and a further
wait with the flag clear blocks. -/
theorem wake_signal_coalesces (n : Nat) (s : Bool) (h : 1 ≤ n) :
    semGive^[n] s = true ∧
    semTake (semGive^[n] s) = some false ∧
    semTake false = none := by
  obtain ⟨m, rfl⟩ : ∃ m, n = m + 1 := ⟨n - 1, by omega⟩
  rw [Function.iterate_succ_apply']
  exact ⟨rfl, rfl, rfl⟩

/-- Witness for claim C7: two rapid raises before the consumer resumes result
in exactly one processed wake. -/
theorem wake_signal_coalesces_witness :
    semGive^[2] false = true ∧
    semTake (semGive^[2] false) = some false ∧
    semTake false = none :=
  wake_signal_coalesces 2 false (by decide)

/-- Claim C8: `setup()` halts with the diagnostic exactly when the queue or
either semaphore failed to allocate, and in that case no task is created;
only when all three allocations succeed does it start the five tasks. -/
theorem setup_halts_on_alloc_failure :
    ∀ lcdQueueOk displaySemOk alarmSemOk : Bool,
      ((lcdQueueOk = false ∨ displaySemOk = false ∨ alarmSemOk = false) ↔
        setupModel lcdQueueOk displaySemOk alarmSemOk =
          SetupOutcome.halted "Failed to create queue or semaphores") ∧
      ((lcdQueueOk = true ∧ displaySemOk = true ∧ alarmSemOk = true) ↔
        setupModel lcdQueueOk displaySemOk alarmSemOk =
          SetupOutcome.running ["LCD", "LightDetector", "LightDisplay", "Alarm", "Prime"]) := by
  decide

/-- Claim C9: on the very first wake the last-rendered memory holds the `-1`
sentinels, and any raw/smoothed pair derived from readings in `[0, 4095]`
differs from `-1`, so `lightDisplayTask` necessarily sends. -/
theorem display_first_wake_sends (light sma : Int)
    (h1 : 0 ≤ light) (h2 : light ≤ 4095) (_h3 : 0 ≤ sma) (_h4 : sma ≤ 4095) :
    (lightDisplayStep displayInit light sma).2 = some (light, sma) := by
  have hne : light ≠ displayInit.lastLight := by
    simp only [displayInit]
    omega
  simp [lightDisplayStep, hne]

/-- Witness for claim C9 at the in-range pair (1000, 200). -/
theorem display_first_wake_sends_witness :
    (lightDisplayStep displayInit 1000 200).2 = some (1000, 200) :=
  display_first_wake_sends 1000 200 (by decide) (by decide) (by decide) (by decide)

/-- The five most recent values fed to the smoothing window, oldest first,
padded at the front with the zero-initialized slots. -/
def windowOf (xs : List Nat) : List Nat :=
  (List.replicate 5 0 ++ xs).drop xs.length

lemma windowOf_length (xs : List Nat) : (windowOf xs).length = 5 := by
  simp only [windowOf, List.length_drop, List.length_append, List.length_replicate]
  omega

lemma exists_cons_five (w : List Nat) (h : w.length = 5) :
    ∃ a b c d e, w = [a, b, c, d, e] := by
  rcases w with - | ⟨a, - | ⟨b, - | ⟨c, - | ⟨d, - | ⟨e, rest⟩⟩⟩⟩⟩ <;>
    simp only [List.length] at h
  · omega
  · omega
  · omega
  · omega
  · omega
  · refine ⟨a, b, c, d, e, ?_⟩
    have : rest = [] := List.eq_nil_of_length_eq_zero (by omega)
    rw [this]

lemma run_append (xs : List Nat) (v : Nat) :
    lightDetectorRun (xs ++ [v]) = lightDetectorStep (lightDetectorRun xs) v := by
  simp [lightDetectorRun, List.foldl_append]

lemma window_step (a b c d e v n : Nat) :
    (([a, b, c, d, e].rotate (5 - n % 5)).set (n % 5) v) =
      ([b, c, d, e, v].rotate (5 - (n + 1) % 5)) := by
  have h6 : (n + 1) % 5 = (n % 5 + 1) % 5 := by omega
  have h5 : n % 5 = 0 ∨ n % 5 = 1 ∨ n % 5 = 2 ∨ n % 5 = 3 ∨ n % 5 = 4 := by omega
  rw [h6]
  rcases h5 with h | h | h | h | h <;>
    rw [h] <;>
    simp [List.rotate_eq_drop_append_take_mod]

/-- Main circular-buffer invariant of the sampler: the cursor equals the
number of samples mod 5, the history array is the rotation of the padded
five-sample window by the cursor offset, and the published smoothed value is
the integer mean of the five slots. -/
lemma lightDetectorRun_inv (xs : List Nat) :
    (lightDetectorRun xs).historyIndex = xs.length % 5 ∧
    (lightDetectorRun xs).lightHistory = (windowOf xs).rotate (5 - xs.length % 5) ∧
    (lightDetectorRun xs).smaValue = (lightDetectorRun xs).lightHistory.sum / 5 := by
  induction xs using List.reverseRecOn with
  | nil => exact ⟨rfl, by decide, rfl⟩
  | append_singleton xs v ih =>
    obtain ⟨hidx, hhist, -⟩ := ih
    obtain ⟨a, b, c, d, e, hw⟩ := exists_cons_five (windowOf xs) (windowOf_length xs)
    have hlen : (xs ++ [v]).length = xs.length + 1 := by simp
    have hwin : windowOf (xs ++ [v]) = [b, c, d, e, v] := by
      have h1 : windowOf (xs ++ [v]) =
          (List.replicate 5 0 ++ xs).drop (xs.length + 1) ++ [v] := by
        rw [windowOf, hlen, ← List.append_assoc, List.drop_append_eq_append_drop]
        have : xs.length + 1 - (List.replicate 5 (0 : Nat) ++ xs).length = 0 := by
          simp only [List.length_append, List.length_replicate]
          omega
        rw [this, List.drop_zero]
      have h2 : (List.replicate 5 (0 : Nat) ++ xs).drop (xs.length + 1) =
          (windowOf xs).drop 1 := by
        rw [windowOf, List.drop_drop]
      rw [h1, h2, hw]
      rfl
    refine ⟨?_, ?_, ?_⟩
    · rw [run_append]
      show ((lightDetectorRun xs).historyIndex + 1) % 5 = (xs ++ [v]).length % 5
      rw [hidx, hlen]
      omega
    · rw [run_append, hlen, hwin]
      show (lightDetectorRun xs).lightHistory.set (lightDetectorRun xs).historyIndex v =
        ([b, c, d, e, v].rotate (5 - (xs.length + 1) % 5))
      rw [hidx, hhist, hw, window_step]
    · rw [run_append]
      rfl

/-- Claim C2: the smoothed value published after any sequence of samples is
the integer mean (sum divided by 5) of the five most recent raw samples;
while fewer than five samples have been written, the dropped-prefix list is
the whole input and the zero-initialized slots contribute zero to the sum, so
the same expression reproduces the start-up transient. -/
theorem smaValue_eq_mean_last_five (xs : List Nat) :
    (lightDetectorRun xs).smaValue = (xs.drop (xs.length - 5)).sum / 5 := by
  obtain ⟨-, hhist, hsma⟩ := lightDetectorRun_inv xs
  rw [hsma, hhist, ((windowOf xs).rotate_perm _).sum_eq]
  have : (windowOf xs).sum = (xs.drop (xs.length - 5)).sum := by
    rw [windowOf, List.drop_append_eq_append_drop, List.sum_append,
      List.drop_replicate, List.sum_replicate, List.length_replicate,
      smul_zero, Nat.zero_add]
  rw [this]

/-- Bounds invariant for the sampler: with all readings at most 4095, every
component of the state stays in range. -/
lemma lightDetectorRun_bounds (xs : List Nat) (hxs : ∀ v ∈ xs, v ≤ 4095) :
    (lightDetectorRun xs).lightLevel ≤ 4095 ∧
    (lightDetectorRun xs).historyIndex < 5 ∧
    (lightDetectorRun xs).lightHistory.length = 5 ∧
    (∀ u ∈ (lightDetectorRun xs).lightHistory, u ≤ 4095) ∧
    (lightDetectorRun xs).smaValue ≤ 4095 := by
  induction xs using List.reverseRecOn with
  | nil =>
    refine ⟨by decide, by decide, by decide, ?_, by decide⟩
    intro u hu
    have : u = 0 := List.eq_of_mem_replicate hu
    omega
  | append_singleton xs v ih =>
    have hv : v ≤ 4095 := hxs v (by simp)
    obtain ⟨hL, hI, hlen, hmem, hS⟩ := ih fun u hu => hxs u (by simp [hu])
    rw [run_append]
    have hmem' : ∀ u ∈ (lightDetectorRun xs).lightHistory.set
        (lightDetectorRun xs).historyIndex v, u ≤ 4095 := by
      intro u hu
      rcases List.mem_or_eq_of_mem_set hu with h | h
      · exact hmem u h
      · omega
    have hlen' : ((lightDetectorRun xs).lightHistory.set
        (lightDetectorRun xs).historyIndex v).length = 5 := by
      rw [List.length_set, hlen]
    refine ⟨hv, by simp [lightDetectorStep]; omega, ?_, ?_, ?_⟩
    · show ((lightDetectorRun xs).lightHistory.set
        (lightDetectorRun xs).historyIndex v).length = 5
      exact hlen'
    · exact hmem'
    · show ((lightDetectorRun xs).lightHistory.set
        (lightDetectorRun xs).historyIndex v).sum / 5 ≤ 4095
      have hsum : ((lightDetectorRun xs).lightHistory.set
          (lightDetectorRun xs).historyIndex v).sum ≤ 20475 := by
        have := List.sum_le_card_nsmul
          ((lightDetectorRun xs).lightHistory.set (lightDetectorRun xs).historyIndex v)
          4095 hmem'
        rw [hlen', smul_eq_mul] at this
        omega
      calc ((lightDetectorRun xs).lightHistory.set
            (lightDetectorRun xs).historyIndex v).sum / 5
          ≤ 20475 / 5 := Nat.div_le_div_right hsum
        _ = 4095 := by norm_num

/-- Claim C10: if every raw sample is at most 4095 (readings are 12-bit, so
non-negative by the `Nat` model), then in every reachable sampler state the
published raw value and smoothed value are at most 4095 and the circular
write cursor stays below 5. -/
theorem published_values_in_range (xs : List Nat) (hxs : ∀ v ∈ xs, v ≤ 4095) :
    (lightDetectorRun xs).lightLevel ≤ 4095 ∧
    (lightDetectorRun xs).smaValue ≤ 4095 ∧
    (lightDetectorRun xs).historyIndex < 5 := by
  obtain ⟨h1, h2, -, -, h3⟩ := lightDetectorRun_bounds xs hxs
  exact ⟨h1, h3, h2⟩

/-- Witness for claim C10 on the readings 4000 then 100. -/
theorem published_values_in_range_witness :
    (lightDetectorRun [4000, 100]).lightLevel ≤ 4095 ∧
    (lightDetectorRun [4000, 100]).smaValue ≤ 4095 ∧
    (lightDetectorRun [4000, 100]).historyIndex < 5 :=
  published_values_in_range [4000, 100] (by decide)

/-- Characterization of the trial-division loop: when the fuel outlasts the
loop bound, the loop accepts exactly when no candidate divisor `j ≥ i` with
`j * j ≤ num` divides `num`. -/
lemma trialLoop_true_iff (num : Nat) :
    ∀ fuel i, num < (i + fuel) * (i + fuel) →
      (trialLoop num i fuel = true ↔ ∀ j, i ≤ j → j * j ≤ num → ¬ num % j = 0) := by
  intro fuel
  induction fuel with
  | zero =>
    intro i hbound
    rw [Nat.add_zero] at hbound
    simp only [trialLoop, true_iff]
    intro j hij hjj
    have : i * i ≤ j * j := Nat.mul_le_mul hij hij
    omega
  | succ fuel ih =>
    intro i hbound
    rw [trialLoop]
    by_cases hii : i * i ≤ num
    · rw [if_pos hii]
      by_cases hdvd : num % i = 0
      · rw [if_pos hdvd]
        exact iff_of_false (by simp) (fun h => h i (Nat.le_refl i) hii hdvd)
      · rw [if_neg hdvd]
        have hb' : num < (i + 1 + fuel) * (i + 1 + fuel) := by
          have : i + 1 + fuel = i + (fuel + 1) := by omega
          rw [this]
          exact hbound
        rw [ih (i + 1) hb']
        constructor
        · intro h j hij hjj
          rcases Nat.eq_or_lt_of_le hij with rfl | hlt
          · exact hdvd
          · exact h j hlt hjj
        · intro h j hij hjj
          exact h j (by omega) hjj
    · rw [if_neg hii]
      simp only [true_iff]
      intro j hij hjj
      have : i * i ≤ j * j := Nat.mul_le_mul hij hij
      omega

/-- For candidates of at least 2, the source's trial division agrees with
primality. -/
lemma isPrimeTrial_iff (num : Nat) (h2 : 2 ≤ num) :
    isPrimeTrial num = true ↔ Nat.Prime num := by
  have hbound : num < (2 + num) * (2 + num) := by nlinarith
  rw [isPrimeTrial, trialLoop_true_iff num num 2 hbound]
  constructor
  · intro h
    rw [Nat.prime_def_le_sqrt]
    refine ⟨h2, fun m hm hms hdvd => ?_⟩
    have hmm : m * m ≤ num := Nat.le_sqrt.mp hms
    have : num % m = 0 := Nat.dvd_iff_mod_eq_zero.mp hdvd
    exact h m hm hmm this
  · intro hp j h2j hjj hmod
    have hdvd : j ∣ num := Nat.dvd_iff_mod_eq_zero.mpr hmod
    rcases (Nat.Prime.eq_one_or_self_of_dvd hp j hdvd) with h1 | hself
    · omega
    · subst hself
      nlinarith

/-- Claim C6: `primeTask` emits a number exactly when it lies in `[2, 5000]`
and is prime (primality being decided by trial division over divisors `i`
with `i * i ≤ n`); restricted to `[2, 10]` the emitted numbers are exactly
2, 3, 5, 7; and the task's trace ends with its permanent self-deletion after
the range is complete. -/
theorem prime_task_emits :
    (∀ n, n ∈ primeTaskEmits ↔ (2 ≤ n ∧ n ≤ 5000 ∧ Nat.Prime n)) ∧
    (List.range' 2 9).filter (fun num => isPrimeTrial num) = [2, 3, 5, 7] ∧
    primeTaskTrace.getLast? = some PrimeEv.taskExit := by
  refine ⟨?_, by decide, ?_⟩
  · intro n
    rw [primeTaskEmits, List.mem_filter, List.mem_range'_1]
    constructor
    · rintro ⟨⟨hlo, hhi⟩, hp⟩
      exact ⟨hlo, by omega, (isPrimeTrial_iff n hlo).mp hp⟩
    · rintro ⟨hlo, hhi, hp⟩
      exact ⟨⟨hlo, by omega⟩, (isPrimeTrial_iff n hlo).mpr hp⟩
  · rw [primeTaskTrace]
    exact List.getLast?_concat _
